import Mathlib

/-!
A verification development for the `video-gen` media-assembly pipeline
(`video-processor.js`).  The JavaScript source is shallowly embedded:
strings are `List Char`, JS numbers restricted to the integer values the
timecode code manipulates are `JSNum` (an integer or `NaN`), thrown
exceptions are `Except`, and the effectful `main` loop is modelled as a
pure state-passing function over an environment of external-tool oracles
(download / stream-copy / re-encode / merge outcomes) that records every
external invocation in an event trace.
-/

/-- Shorthand: the character list of a string literal. -/
def str (s : String) : List Char := s.data

/-- A JavaScript number as it occurs in the timecode code: either an exact
integer or `NaN` (produced by `Number()` on a non-numeric token).
JS floats on very large integers lose precision; the timecode arithmetic
here (`h*3600 + m*60 + s` on parsed whole seconds) is modelled exactly. -/
inductive JSNum where
  | nan : JSNum
  | int : Int → JSNum
deriving DecidableEq, Repr

/-- JS multiplication by an integer literal; `NaN` propagates. -/
def jsMul (a : JSNum) (k : Int) : JSNum :=
  match a with
  | .nan => .nan
  | .int n => .int (n * k)

/-- JS addition; `NaN` propagates. -/
def jsAdd (a b : JSNum) : JSNum :=
  match a, b with
  | .int x, .int y => .int (x + y)
  | _, _ => .nan

/-- JS subtraction; `NaN` propagates. -/
def jsSub (a b : JSNum) : JSNum :=
  match a, b with
  | .int x, .int y => .int (x - y)
  | _, _ => .nan

/-- JS `<=` comparison: any comparison involving `NaN` is false. -/
def jsLe (a b : JSNum) : Bool :=
  match a, b with
  | .int x, .int y => x ≤ y
  | _, _ => false

/-- JS `String.prototype.split` with a single-character separator:
`"".split(sep)` is `[""]`, and separators at the ends produce empty
tokens, exactly as in JS. -/
def splitChar (sep : Char) : List Char → List (List Char)
  | [] => [[]]
  | c :: cs =>
    if c = sep then [] :: splitChar sep cs
    else
      match splitChar sep cs with
      | r :: rs => (c :: r) :: rs
      | [] => [[c]]

/-- Whitespace stripped by JS `Number()` conversion (the common ASCII
whitespace characters). -/
def isWS (c : Char) : Bool :=
  c = ' ' ∨ c = '\t' ∨ c = '\n' ∨ c = '\r' ∨ c = '\x0b' ∨ c = '\x0c'

/-- Trim leading and trailing whitespace. -/
def trimWS (l : List Char) : List Char :=
  ((l.dropWhile isWS).reverse.dropWhile isWS).reverse

/-- `l` is a non-empty run of decimal digits. -/
def digitsOnly (l : List Char) : Bool :=
  (!l.isEmpty) && l.all Char.isDigit

/-- Decimal value of a digit run. -/
def digitsVal (l : List Char) : Nat :=
  l.foldl (fun acc c => acc * 10 + (c.toNat - '0'.toNat)) 0

/-- JS `Number()` on the strings the timecode parser feeds it: whitespace
is trimmed, the empty string converts to `0`, an optionally signed run of
decimal digits converts to its value, and anything else converts to `NaN`.
(JS additionally accepts fractional / exponent / hex / `Infinity` literals;
no timecode claim involves those shapes and they are outside this model.) -/
def jsNumber (l : List Char) : JSNum :=
  let t := trimWS l
  match t with
  | [] => .int 0
  | '-' :: ds => if digitsOnly ds then .int (-(digitsVal ds : Int)) else .nan
  | '+' :: ds => if digitsOnly ds then .int (digitsVal ds) else .nan
  | ds => if digitsOnly ds then .int (digitsVal ds) else .nan

deriving instance DecidableEq for Except

/-- `timeToSeconds` from `video-processor.js`: split on `:`, convert each
part with `Number`, then combine by part count; one, two or three parts
succeed (`HH:MM:SS`, `MM:SS`, `SS`), any other count throws. -/
def timeToSeconds (l : List Char) : Except Unit JSNum :=
  let parts := (splitChar ':' l).map jsNumber
  match parts with
  | [h, m, s] => .ok (jsAdd (jsAdd (jsMul h 3600) (jsMul m 60)) s)
  | [m, s] => .ok (jsAdd (jsMul m 60) s)
  | [s] => .ok s
  | _ => .error ()

/-- `calculateDuration` from `video-processor.js`: parse both timecodes
(either parse may throw), throw when `endSeconds <= startSeconds`
(a JS comparison, hence false when either side is `NaN`), otherwise
return the difference. -/
def calculateDuration (startTime endTime : List Char) : Except Unit JSNum := do
  let s ← timeToSeconds startTime
  let e ← timeToSeconds endTime
  if jsLe e s then .error () else .ok (jsSub e s)

/-- A JS regex line terminator (`.` in a regex does not match these). -/
def isLineTerm (c : Char) : Bool :=
  c = '\n' ∨ c = '\r' ∨ c = Char.ofNat 0x2028 ∨ c = Char.ofNat 0x2029

/-- A JS regex word character (`\w`, i.e. `[A-Za-z0-9_]`). -/
def isWordChar (c : Char) : Bool :=
  c.isAlpha ∨ c.isDigit ∨ c = '_'

/-- Does the `youtu.be/` alternative of the ID regex match at the head of
`l`?  The unescaped `.` in the source pattern matches any non-terminator
character. -/
def matchYoutuBe : List Char → Bool
  | 'y' :: 'o' :: 'u' :: 't' :: 'u' :: c :: 'b' :: 'e' :: '/' :: _ => !isLineTerm c
  | _ => false

/-- Does the `u/\w/` alternative match at the head of `l`? -/
def matchUSlash : List Char → Bool
  | 'u' :: '/' :: c :: '/' :: _ => isWordChar c
  | _ => false

/-- Length of the marker group
`(youtu.be\/|v\/|u\/\w\/|embed\/|watch\?v=|&v=)` matching at the head of
`l`, if any.  The six alternatives begin with six distinct characters, so
at most one can match at a given position. -/
def markerAt (l : List Char) : Option Nat :=
  if matchYoutuBe l then some 9
  else if (str "v/").isPrefixOf l then some 2
  else if matchUSlash l then some 4
  else if (str "embed/").isPrefixOf l then some 6
  else if (str "watch?v=").isPrefixOf l then some 8
  else if (str "&v=").isPrefixOf l then some 3
  else none

/-- Rightmost position `p ≤ bound` at which the marker group matches and
whose prefix contains no line terminator (the greedy leading `^.*` of the
regex backtracks from the right but cannot cross a line terminator);
returns the position and the marker length. -/
def findMarkerFrom (l : List Char) : Nat → Option (Nat × Nat)
  | 0 => (markerAt l).map (fun len => (0, len))
  | p + 1 =>
    if (l.take (p + 1)).any isLineTerm then findMarkerFrom l p
    else
      match markerAt (l.drop (p + 1)) with
      | some len => some (p + 1, len)
      | none => findMarkerFrom l p

/-- Rightmost marker-group match in `l`, as chosen by the backtracking
greedy `^.*` of the source regex. -/
def findMarker (l : List Char) : Option (Nat × Nat) :=
  findMarkerFrom l l.length

/-- `getYouTubeId` from `video-processor.js`: match the URL against
`/^.*(youtu.be\/|v\/|u\/\w\/|embed\/|watch\?v=|&v=)([^#&?]*).*/`; the
second group greedily captures everything after the marker up to the
first `#`, `&` or `?`; the result is the capture when it is exactly 11
characters long, otherwise `null` (`none`). -/
def getYouTubeId (url : List Char) : Option (List Char) :=
  match findMarker url with
  | none => none
  | some (p, len) =>
    let captured :=
      (url.drop (p + len)).takeWhile (fun c => !(c = '#' ∨ c = '&' ∨ c = '?'))
    if captured.length = 11 then some captured else none

/-- A validated segment request (`url`, `startTime`, `endTime`). -/
structure SegTask where
  url : List Char
  startTime : List Char
  endTime : List Char
deriving DecidableEq, Repr

/-- A task object as parsed from the input JSON, before validation: any
of the three required fields may be absent. -/
structure RawTask where
  url : Option (List Char)
  startTime : Option (List Char)
  endTime : Option (List Char)
deriving DecidableEq, Repr

/-- JS falsiness of a string-valued field: absent (`undefined`) or the
empty string. -/
def falsyField : Option (List Char) → Bool
  | none => true
  | some l => l.isEmpty

/-- The per-entry test of the whole-batch validation
`task => !task.url || !task.startTime || !task.endTime`. -/
def missingField (r : RawTask) : Bool :=
  falsyField r.url || falsyField r.startTime || falsyField r.endTime

/-- Read a validated task out of a raw one (validation guarantees every
field is present, so the defaults are never consulted on that path). -/
def taskOfRaw (r : RawTask) : SegTask :=
  ⟨r.url.getD [], r.startTime.getD [], r.endTime.getD []⟩

/-- One external-tool invocation or file-system mutation performed by the
pipeline: a `yt-dlp` download for a video id, an ffmpeg stream-copy cut,
an ffmpeg re-encode cut (each carrying the request index, the input path,
the start timecode and the duration passed to `-t`), the final ffmpeg
merge (ordered inputs and output path), and an `fs.remove`. -/
inductive Event where
  | download (idx : Nat) (vid : List Char)
  | ffCopy (idx : Nat) (input : List Char) (start : List Char) (dur : JSNum)
  | ffReencode (idx : Nat) (input : List Char) (start : List Char) (dur : JSNum)
  | ffMerge (inputs : List (List Char)) (out : List Char)
  | removeFile (p : List Char)
deriving DecidableEq, Repr

/-- Is the event a merge invocation? -/
def Event.isMergeEv : Event → Bool
  | .ffMerge _ _ => true
  | _ => false

/-- Is the event a file removal? -/
def Event.isRemoveEv : Event → Bool
  | .removeFile _ => true
  | _ => false

/-- Is the event a download invocation? -/
def Event.isDownloadEv : Event → Bool
  | .download _ _ => true
  | _ => false

/-- Is the event a transcoder (cut) invocation? -/
def Event.isCutEv : Event → Bool
  | .ffCopy _ _ _ _ => true
  | .ffReencode _ _ _ _ => true
  | _ => false

/-- The run environment: configured directories and output path, the set
of video ids already cached on disk, and oracles giving the outcome of
each external-tool invocation (per request index for downloads and cuts,
one outcome for the final merge). -/
structure Env where
  cacheDir : List Char
  tempDir : List Char
  output : List Char
  cache0 : List (List Char)
  fetchOk : Nat → Bool
  copyOk : Nat → Bool
  reencodeOk : Nat → Bool
  mergeOk : Bool
  verbose : Bool

/-- `path.join(cacheDir, videoId + ".mp4")`. -/
def cachedVideoPath (env : Env) (vid : List Char) : List Char :=
  env.cacheDir ++ ('/' :: (vid ++ str ".mp4"))

/-- `path.join(tempDir, "cut_segment_" + (i+1) + "_" + videoId + ".mp4")`. -/
def segmentPath (env : Env) (i : Nat) (vid : List Char) : List Char :=
  env.tempDir ++ ('/' :: (str "cut_segment_" ++ (Nat.repr (i + 1)).data
    ++ str "_" ++ vid ++ str ".mp4"))

/-- Result of processing one request: the cache contents afterwards, the
external invocations performed, the produced clip path (if any), and the
local source path the cut stage used (if the request got that far). -/
structure StepResult where
  cache : List (List Char)
  events : List Event
  clip : Option (List Char)
  usedPath : Option (List Char)
deriving DecidableEq, Repr

/-- The cutting stage (step 4b of `main`): `calculateDuration` is
evaluated while the ffmpeg invocation is being built, so an invalid range
throws before any transcoder runs; otherwise the stream-copy cut runs
first and, exactly when it fails, a re-encode cut with the same start and
the same (recomputed, but pure and hence equal) duration; if both fail
the request yields no clip and the cache is untouched. -/
def cutStage (env : Env) (cache : List (List Char)) (ev0 : List Event)
    (i : Nat) (t : SegTask) (vid : List Char) : StepResult :=
  let cpath := cachedVideoPath env vid
  match calculateDuration t.startTime t.endTime with
  | .error _ => ⟨cache, ev0, none, some cpath⟩
  | .ok d =>
    if env.copyOk i then
      ⟨cache, ev0 ++ [.ffCopy i cpath t.startTime d],
        some (segmentPath env i vid), some cpath⟩
    else if env.reencodeOk i then
      ⟨cache, ev0 ++ [.ffCopy i cpath t.startTime d,
          .ffReencode i cpath t.startTime d],
        some (segmentPath env i vid), some cpath⟩
    else
      ⟨cache, ev0 ++ [.ffCopy i cpath t.startTime d,
          .ffReencode i cpath t.startTime d],
        none, some cpath⟩

/-- One iteration of the per-video loop (step 4 of `main`): extract the
video id (no id: skip, no events); if the deterministic cache path exists
reuse it with no download and no freshness or integrity check; otherwise
invoke `yt-dlp` writing to the cache path (failure: skip); then cut. -/
def processTask (env : Env) (cache : List (List Char)) (i : Nat)
    (t : SegTask) : StepResult :=
  match getYouTubeId t.url with
  | none => ⟨cache, [], none, none⟩
  | some vid =>
    if vid ∈ cache then
      cutStage env cache [] i t vid
    else if env.fetchOk i then
      cutStage env (vid :: cache) [.download i vid] i t vid
    else
      ⟨cache, [.download i vid], none, none⟩

/-- Accumulated state of the per-video loop: cache contents, the event
trace, and `cutSegmentPaths` in push order. -/
structure LoopResult where
  cache : List (List Char)
  events : List Event
  clips : List (List Char)
deriving DecidableEq, Repr

/-- The per-video loop: requests are processed strictly sequentially in
input order, each successful cut appending its clip path to the ordered
accumulator. -/
def runLoop (env : Env) (cache : List (List Char)) (i : Nat) :
    List SegTask → LoopResult
  | [] => ⟨cache, [], []⟩
  | t :: ts =>
    let r := processTask env cache i t
    let rest := runLoop env r.cache (i + 1) ts
    ⟨rest.cache, r.events ++ rest.events, r.clip.toList ++ rest.clips⟩

/-- How a run of `main` ends: whole-batch validation failure
(`process.exit(1)`), the empty-accumulator early exit
(`process.exit(0)`), or a completed run whose merge succeeded or failed
(either way `main` returns normally). -/
inductive Outcome where
  | validationError : Outcome
  | emptyResult : Outcome
  | completed : Bool → Outcome
deriving DecidableEq, Repr

/-- Observable result of a run of `main`. -/
structure MainResult where
  outcome : Outcome
  exitCode : Nat
  producedClipCount : Nat
  events : List Event
deriving DecidableEq, Repr

/-- `main` from `video-processor.js` (steps 3–6; the CLI surface,
dependency checks and directory setup are external collaborators): the
whole task list is validated before the loop and rejected wholesale on
any missing field; then the per-video loop runs; an empty accumulator
exits successfully with no merge (removing the temp directory unless
verbose); otherwise one merge is invoked over the accumulated clips in
order — on failure nothing is removed except, as always when not
verbose, the temp directory — and the process ends with exit code 0. -/
def runMain (env : Env) (raw : List RawTask) : MainResult :=
  if raw.any missingField then
    ⟨.validationError, 1, 0, []⟩
  else
    let r := runLoop env env.cache0 0 (raw.map taskOfRaw)
    let cleanup : List Event :=
      if env.verbose then [] else [.removeFile env.tempDir]
    if r.clips.isEmpty then
      ⟨.emptyResult, 0, 0, r.events ++ cleanup⟩
    else
      ⟨.completed env.mergeOk, 0, r.clips.length,
        r.events ++ [.ffMerge r.clips env.output] ++ cleanup⟩

/-- Cache contents just before request `i` of a run of `main`. -/
def cacheBefore (env : Env) (ts : List SegTask) (i : Nat) : List (List Char) :=
  (runLoop env env.cache0 0 (ts.take i)).cache

/-- The clip produced by request `i` of a run of `main`, if any. -/
def producedAt (env : Env) (ts : List SegTask) (i : Nat) : Option (List Char) :=
  match ts[i]? with
  | none => none
  | some t => (processTask env (cacheBefore env ts i) i t).clip

/-- The ordered clip list handed to the merge stage by `main`. -/
def mergedClips (env : Env) (ts : List SegTask) : List (List Char) :=
  (runLoop env env.cache0 0 ts).clips

example : getYouTubeId (str "https://www.youtube.com/watch?v=FZLadzn5i6Q") =
    some (str "FZLadzn5i6Q") := by decide
example : getYouTubeId (str "https://youtu.be/FZLadzn5i6Q") =
    some (str "FZLadzn5i6Q") := by decide
example : getYouTubeId (str "https://www.youtube.com/embed/FZLadzn5i6Q?rel=0") =
    some (str "FZLadzn5i6Q") := by decide
example : getYouTubeId (str "https://example.com/nothing") = none := by decide
example : getYouTubeId (str "https://youtu.be/short") = none := by decide
example : getYouTubeId (str "") = none := by decide
example : timeToSeconds (str "01:02:03") = .ok (.int 3723) := by decide
example : timeToSeconds (str "02:03") = .ok (.int 123) := by decide
example : timeToSeconds (str "45") = .ok (.int 45) := by decide
example : timeToSeconds (str "abc") = .ok .nan := by decide
example : timeToSeconds (str "") = .ok (.int 0) := by decide
example : timeToSeconds (str "1:2:3:4") = .error () := by decide
example : timeToSeconds (str "99:99") = .ok (.int 6039) := by decide
example : timeToSeconds (str "00:99") = .ok (.int 99) := by decide
example : timeToSeconds (str "10:-5") = .ok (.int 595) := by decide
example : calculateDuration (str "10") (str "5") = .error () := by decide
example : calculateDuration (str "0") (str "5") = .ok (.int 5) := by decide

/-! ## Structural lemmas about the model -/

theorem eventKind_not_merge_remove (e : Event)
    (h : e.isDownloadEv = true ∨ e.isCutEv = true) :
    e.isMergeEv = false ∧ e.isRemoveEv = false := by
  cases e <;> simp_all [Event.isDownloadEv, Event.isCutEv, Event.isMergeEv,
    Event.isRemoveEv]

theorem cutStage_cache (env : Env) (cache : List (List Char))
    (ev0 : List Event) (i : Nat) (t : SegTask) (vid : List Char) :
    (cutStage env cache ev0 i t vid).cache = cache := by
  unfold cutStage
  split
  · rfl
  · split
    · rfl
    · split <;> rfl

theorem cutStage_usedPath (env : Env) (cache : List (List Char))
    (ev0 : List Event) (i : Nat) (t : SegTask) (vid : List Char) :
    (cutStage env cache ev0 i t vid).usedPath =
      some (cachedVideoPath env vid) := by
  unfold cutStage
  split
  · rfl
  · split
    · rfl
    · split <;> rfl

theorem cutStage_events_decomp (env : Env) (cache : List (List Char))
    (ev0 : List Event) (i : Nat) (t : SegTask) (vid : List Char) :
    ∃ tail, (cutStage env cache ev0 i t vid).events = ev0 ++ tail ∧
      ∀ e ∈ tail, e.isCutEv = true := by
  unfold cutStage
  split
  · exact ⟨[], by simp⟩
  · rename_i x d heq
    split
    · refine ⟨[.ffCopy i (cachedVideoPath env vid) t.startTime d], rfl, ?_⟩
      simp [Event.isCutEv]
    · split <;>
      · refine ⟨[.ffCopy i (cachedVideoPath env vid) t.startTime d,
          .ffReencode i (cachedVideoPath env vid) t.startTime d], rfl, ?_⟩
        simp [Event.isCutEv]

theorem processTask_events_kinds (env : Env) (c : List (List Char)) (i : Nat)
    (t : SegTask) :
    ∀ e ∈ (processTask env c i t).events,
      e.isDownloadEv = true ∨ e.isCutEv = true := by
  intro e he
  unfold processTask at he
  split at he
  · simp at he
  · rename_i vid _
    split at he
    · obtain ⟨tail, htl, hcut⟩ := cutStage_events_decomp env c [] i t vid
      rw [htl] at he
      simp at he
      exact Or.inr (hcut e he)
    · split at he
      · obtain ⟨tail, htl, hcut⟩ :=
          cutStage_events_decomp env (vid :: c) [.download i vid] i t vid
        rw [htl] at he
        simp at he
        rcases he with h | h
        · subst h; left; rfl
        · exact Or.inr (hcut e h)
      · simp at he
        subst he; left; rfl

theorem runLoop_events_kinds (env : Env) (ts : List SegTask) :
    ∀ c i, ∀ e ∈ (runLoop env c i ts).events,
      e.isDownloadEv = true ∨ e.isCutEv = true := by
  induction ts with
  | nil => intro c i e he; simp [runLoop] at he
  | cons t ts ih =>
    intro c i e he
    simp only [runLoop, List.mem_append] at he
    rcases he with h | h
    · exact processTask_events_kinds env c i t e h
    · exact ih _ _ e h

theorem runLoop_cache_append (env : Env) (ts₁ ts₂ : List SegTask) :
    ∀ c i, (runLoop env c i (ts₁ ++ ts₂)).cache =
      (runLoop env (runLoop env c i ts₁).cache (i + ts₁.length) ts₂).cache := by
  induction ts₁ with
  | nil => intro c i; rfl
  | cons t ts ih =>
    intro c i
    have h1 : (runLoop env c i ((t :: ts) ++ ts₂)).cache
        = (runLoop env (processTask env c i t).cache (i + 1) (ts ++ ts₂)).cache :=
      rfl
    have h4 : (runLoop env c i (t :: ts)).cache
        = (runLoop env (processTask env c i t).cache (i + 1) ts).cache := rfl
    rw [h1, ih, h4]
    have h2 : i + 1 + ts.length = i + (t :: ts).length := by
      simp only [List.length_cons]; omega
    rw [h2]

theorem runLoop_clips_append (env : Env) (ts₁ ts₂ : List SegTask) :
    ∀ c i, (runLoop env c i (ts₁ ++ ts₂)).clips =
      (runLoop env c i ts₁).clips ++
        (runLoop env (runLoop env c i ts₁).cache (i + ts₁.length) ts₂).clips := by
  induction ts₁ with
  | nil => intro c i; rfl
  | cons t ts ih =>
    intro c i
    have h1 : (runLoop env c i ((t :: ts) ++ ts₂)).clips
        = (processTask env c i t).clip.toList
          ++ (runLoop env (processTask env c i t).cache (i + 1) (ts ++ ts₂)).clips :=
      rfl
    have h3 : (runLoop env c i (t :: ts)).clips
        = (processTask env c i t).clip.toList
          ++ (runLoop env (processTask env c i t).cache (i + 1) ts).clips := rfl
    have h4 : (runLoop env c i (t :: ts)).cache
        = (runLoop env (processTask env c i t).cache (i + 1) ts).cache := rfl
    rw [h1, ih, h3, h4, List.append_assoc]
    have h2 : i + 1 + ts.length = i + (t :: ts).length := by
      simp only [List.length_cons]; omega
    rw [h2]

/-! ## Claim theorems -/

/-- Claim C2, counterexample: the claim asserts every non-numeric shape —
including `"abc"` and the empty string — fails with a parse error, but
`timeToSeconds` only checks the colon-separated part count, so `"abc"`
returns the value `NaN` and `""` returns the value `0`, with no error. -/
theorem timeToSeconds_nonnumeric_counterexample :
    timeToSeconds (str "abc") = .ok .nan ∧
    timeToSeconds (str "") = .ok (.int 0) := by
  decide

/-- Claim C2 (amended): timecode parsing returns `h*3600 + m*60 + s`,
`m*60 + s` and `s` for the three numeric shapes (`"01:02:03"` gives 3723,
`"02:03"` gives 123, `"45"` gives 45), and any string with four or more
colon-separated parts fails with a parse error; but a string of at most
three parts whose tokens are not numeric does not fail: it returns `NaN`
(e.g. `"abc"`), and the empty string returns `0`. -/
theorem timeToSeconds_amended :
    timeToSeconds (str "01:02:03") = .ok (.int 3723) ∧
    timeToSeconds (str "02:03") = .ok (.int 123) ∧
    timeToSeconds (str "45") = .ok (.int 45) ∧
    (∀ l : List Char, 4 ≤ (splitChar ':' l).length →
      timeToSeconds l = .error ()) ∧
    timeToSeconds (str "abc") = .ok .nan ∧
    timeToSeconds (str "") = .ok (.int 0) := by
  refine ⟨by decide, by decide, by decide, ?_, by decide, by decide⟩
  intro l hl
  rcases h : splitChar ':' l with _ | ⟨a, tl⟩
  · rw [h] at hl; simp at hl
  rcases tl with _ | ⟨b, tl2⟩
  · rw [h] at hl; simp at hl
  rcases tl2 with _ | ⟨c, tl3⟩
  · rw [h] at hl; simp at hl
  rcases tl3 with _ | ⟨d, tl4⟩
  · rw [h] at hl; simp at hl
  unfold timeToSeconds
  rw [h]
  rfl

/-- Claim C2, witness for the amended theorem: `"1:2:3:4"` has four
colon-separated parts and is rejected with a parse error. -/
theorem timeToSeconds_amended_witness :
    4 ≤ (splitChar ':' (str "1:2:3:4")).length ∧
    timeToSeconds (str "1:2:3:4") = .error () :=
  ⟨by decide, timeToSeconds_amended.2.2.2.1 (str "1:2:3:4") (by decide)⟩

/-- Claim C10: the timecode parser performs no range check — every
colon-separated string of one, two or three numeric parts is accepted
(parses to an integer) even when components are 60 or more, or negative;
in particular `"99:99"` parses to 6039 seconds, `"00:99"` to 99 seconds,
and `"10:-5"` to 595 seconds. -/
theorem timecode_no_range_check :
    (∀ l : List Char, 1 ≤ (splitChar ':' l).length →
      (splitChar ':' l).length ≤ 3 →
      (∀ p ∈ splitChar ':' l, jsNumber p ≠ .nan) →
      ∃ n : Int, timeToSeconds l = .ok (.int n)) ∧
    timeToSeconds (str "99:99") = .ok (.int 6039) ∧
    timeToSeconds (str "00:99") = .ok (.int 99) ∧
    timeToSeconds (str "10:-5") = .ok (.int 595) := by
  refine ⟨?_, by decide, by decide, by decide⟩
  intro l h1 h3 hnum
  have getInt : ∀ p ∈ splitChar ':' l, ∃ x : Int, jsNumber p = .int x := by
    intro p hp
    rcases hx : jsNumber p with _ | x
    · exact absurd hx (hnum p hp)
    · exact ⟨x, rfl⟩
  rcases h : splitChar ':' l with _ | ⟨a, tl⟩
  · rw [h] at h1; simp at h1
  rcases tl with _ | ⟨b, tl2⟩
  · obtain ⟨x, hx⟩ := getInt a (by rw [h]; simp)
    refine ⟨x, ?_⟩
    unfold timeToSeconds
    rw [h]
    simp [hx]
  rcases tl2 with _ | ⟨c, tl3⟩
  · obtain ⟨x, hx⟩ := getInt a (by rw [h]; simp)
    obtain ⟨y, hy⟩ := getInt b (by rw [h]; simp)
    refine ⟨x * 60 + y, ?_⟩
    unfold timeToSeconds
    rw [h]
    simp [hx, hy, jsMul, jsAdd]
  rcases tl3 with _ | ⟨d, tl4⟩
  · obtain ⟨x, hx⟩ := getInt a (by rw [h]; simp)
    obtain ⟨y, hy⟩ := getInt b (by rw [h]; simp)
    obtain ⟨z, hz⟩ := getInt c (by rw [h]; simp)
    refine ⟨x * 3600 + y * 60 + z, ?_⟩
    unfold timeToSeconds
    rw [h]
    simp [hx, hy, hz, jsMul, jsAdd]
  · rw [h] at h3; simp at h3

/-- Claim C10, witness: `"99:99"` is a two-part numeric timecode with an
out-of-range seconds component and is accepted, parsing to an integer. -/
theorem timecode_no_range_check_witness :
    (1 ≤ (splitChar ':' (str "99:99")).length ∧
      (splitChar ':' (str "99:99")).length ≤ 3 ∧
      ∀ p ∈ splitChar ':' (str "99:99"), jsNumber p ≠ .nan) ∧
    ∃ n : Int, timeToSeconds (str "99:99") = .ok (.int n) :=
  ⟨⟨by decide, by decide, by decide⟩,
    timecode_no_range_check.1 (str "99:99") (by decide) (by decide) (by decide)⟩

/-- Claim C9: identifier extraction is total — `getYouTubeId` is a total
function (it can never throw), and whenever it returns a string at all
that string has exactly 11 characters; a captured token of any other
length yields `none` by the final length guard. -/
theorem getYouTubeId_total_eleven :
    ∀ url s : List Char, getYouTubeId url = some s → s.length = 11 := by
  intro url s h
  unfold getYouTubeId at h
  rcases hm : findMarker url with _ | ⟨p, len⟩
  · rw [hm] at h; simp at h
  · rw [hm] at h
    dsimp only at h
    split at h
    · rename_i h11
      cases h
      exact h11
    · simp at h

/-- Claim C9, witness: a recognized URL yields an 11-character id. -/
theorem getYouTubeId_total_eleven_witness :
    getYouTubeId (str "https://youtu.be/FZLadzn5i6Q") =
      some (str "FZLadzn5i6Q") ∧
    (str "FZLadzn5i6Q").length = 11 :=
  ⟨by decide, getYouTubeId_total_eleven (str "https://youtu.be/FZLadzn5i6Q")
    (str "FZLadzn5i6Q") (by decide)⟩

/-- Claim C8: input validation is whole-batch — if any entry of the task
list has a missing (or JS-falsy) `url`, `startTime` or `endTime` field,
`main` exits with a validation error (exit code 1) before the per-request
loop: no download, cut or merge invocation is ever performed. -/
theorem whole_batch_validation (env : Env) (raw : List RawTask)
    (h : ∃ t ∈ raw, missingField t = true) :
    (runMain env raw).outcome = .validationError ∧
    (runMain env raw).exitCode = 1 ∧
    (runMain env raw).events = [] := by
  have ha : raw.any missingField = true := by
    rcases h with ⟨t, ht, hm⟩
    exact List.any_eq_true.mpr ⟨t, ht, hm⟩
  unfold runMain
  rw [ha]
  exact ⟨rfl, rfl, rfl⟩

/-- Claim C8, witness: a batch whose single entry lacks `url` is rejected
wholesale with no events. -/
theorem whole_batch_validation_witness :
    (∃ t ∈ [(⟨none, some (str "0"), some (str "5")⟩ : RawTask)],
      missingField t = true) ∧
    (runMain ⟨str "cache", str "tmp", str "out.mp4", [], fun _ => true,
        fun _ => true, fun _ => true, true, false⟩
      [⟨none, some (str "0"), some (str "5")⟩]).outcome = .validationError :=
  ⟨⟨(⟨none, some (str "0"), some (str "5")⟩ : RawTask), by simp, by decide⟩,
    (whole_batch_validation _ _
      ⟨(⟨none, some (str "0"), some (str "5")⟩ : RawTask), by simp,
        by decide⟩).1⟩

/-- Claim C7: when no request produces a clip (the accumulator is empty
after the loop), the merge stage is never invoked, the run exits
successfully (exit code 0) with a produced-clip count of zero. -/
theorem empty_accumulator_skips_merge (env : Env) (raw : List RawTask)
    (hv : raw.any missingField = false)
    (he : (runLoop env env.cache0 0 (raw.map taskOfRaw)).clips = []) :
    (runMain env raw).outcome = .emptyResult ∧
    (runMain env raw).exitCode = 0 ∧
    (runMain env raw).producedClipCount = 0 ∧
    ∀ e ∈ (runMain env raw).events, e.isMergeEv = false := by
  unfold runMain
  rw [hv]
  simp only [Bool.false_eq_true, if_false]
  rw [he]
  simp only [List.isEmpty_nil, if_true]
  refine ⟨trivial, trivial, trivial, ?_⟩
  intro e hev
  simp only [List.mem_append] at hev
  rcases hev with hl | hc
  · exact (eventKind_not_merge_remove e
      (runLoop_events_kinds env (raw.map taskOfRaw) env.cache0 0 e hl)).1
  · rcases hverb : env.verbose with _ | _ <;> rw [hverb] at hc <;> simp at hc
    subst hc
    rfl

/-- Claim C7, witness: a batch whose single entry has an unrecognizable
URL produces no clips; the run ends with outcome `emptyResult`, exit
code 0 and zero produced clips. -/
theorem empty_accumulator_skips_merge_witness :
    ([(⟨some (str "bad"), some (str "0"), some (str "5")⟩ : RawTask)].any
        missingField = false ∧
      (runLoop ⟨str "cache", str "tmp", str "out.mp4", [], fun _ => true,
          fun _ => true, fun _ => true, true, false⟩ [] 0
        ([(⟨some (str "bad"), some (str "0"), some (str "5")⟩ : RawTask)].map
          taskOfRaw)).clips = []) ∧
    ((runMain ⟨str "cache", str "tmp", str "out.mp4", [], fun _ => true,
        fun _ => true, fun _ => true, true, false⟩
      [⟨some (str "bad"), some (str "0"), some (str "5")⟩]).outcome =
        .emptyResult ∧
      (runMain ⟨str "cache", str "tmp", str "out.mp4", [], fun _ => true,
          fun _ => true, fun _ => true, true, false⟩
        [⟨some (str "bad"), some (str "0"), some (str "5")⟩]).exitCode = 0) :=
  ⟨⟨by decide, by decide⟩,
    ⟨(empty_accumulator_skips_merge _ _ (by decide) (by decide)).1,
      (empty_accumulator_skips_merge _ _ (by decide) (by decide)).2.1⟩⟩

theorem cutStage_of_error (env : Env) (cache : List (List Char))
    (ev0 : List Event) (i : Nat) (t : SegTask) (vid : List Char)
    (hd : calculateDuration t.startTime t.endTime = .error ()) :
    cutStage env cache ev0 i t vid =
      ⟨cache, ev0, none, some (cachedVideoPath env vid)⟩ := by
  unfold cutStage
  rw [hd]

theorem cutStage_of_ok (env : Env) (cache : List (List Char))
    (ev0 : List Event) (i : Nat) (t : SegTask) (vid : List Char) (d : JSNum)
    (hd : calculateDuration t.startTime t.endTime = .ok d) :
    cutStage env cache ev0 i t vid =
      if env.copyOk i then
        ⟨cache, ev0 ++ [.ffCopy i (cachedVideoPath env vid) t.startTime d],
          some (segmentPath env i vid), some (cachedVideoPath env vid)⟩
      else if env.reencodeOk i then
        ⟨cache, ev0 ++ [.ffCopy i (cachedVideoPath env vid) t.startTime d,
            .ffReencode i (cachedVideoPath env vid) t.startTime d],
          some (segmentPath env i vid), some (cachedVideoPath env vid)⟩
      else
        ⟨cache, ev0 ++ [.ffCopy i (cachedVideoPath env vid) t.startTime d,
            .ffReencode i (cachedVideoPath env vid) t.startTime d],
          none, some (cachedVideoPath env vid)⟩ := by
  unfold cutStage
  rw [hd]

theorem processTask_of_id (env : Env) (c : List (List Char)) (i : Nat)
    (t : SegTask) (vid : List Char)
    (hid : getYouTubeId t.url = some vid) :
    processTask env c i t =
      if vid ∈ c then cutStage env c [] i t vid
      else if env.fetchOk i then
        cutStage env (vid :: c) [.download i vid] i t vid
      else ⟨c, [.download i vid], none, none⟩ := by
  unfold processTask
  rw [hid]

theorem calculateDuration_of_le (t : SegTask) (sv ev : Int)
    (hs : timeToSeconds t.startTime = .ok (.int sv))
    (he : timeToSeconds t.endTime = .ok (.int ev))
    (hle : ev ≤ sv) :
    calculateDuration t.startTime t.endTime = .error () := by
  unfold calculateDuration
  rw [hs]
  show (do
    let e ← timeToSeconds t.endTime
    if jsLe e (.int sv) then Except.error () else Except.ok (jsSub e (.int sv)))
      = Except.error ()
  rw [he]
  show (if jsLe (.int ev) (.int sv) then Except.error ()
    else Except.ok (jsSub (.int ev) (.int sv))) = Except.error ()
  simp [jsLe, hle]

/-- Claim C3, counterexample: the claim requires a request with
`endTime <= startTime` to be rejected before any external tool — download
included — runs on its behalf; but the range check sits in the cutting
stage, after the fetch, so for an uncached source a download is performed
first: with start `"10"`, end `"5"` (10 and 5 seconds) the request is
skipped with no clip, yet its trace contains a download invocation. -/
theorem invalid_range_download_counterexample :
    timeToSeconds (str "10") = .ok (.int 10) ∧
    timeToSeconds (str "5") = .ok (.int 5) ∧
    Event.download 0 (str "FZLadzn5i6Q") ∈
      (processTask ⟨str "cache", str "tmp", str "out.mp4", [], fun _ => true,
          fun _ => true, fun _ => true, true, false⟩ [] 0
        ⟨str "https://youtu.be/FZLadzn5i6Q", str "10", str "5"⟩).events ∧
    (processTask ⟨str "cache", str "tmp", str "out.mp4", [], fun _ => true,
        fun _ => true, fun _ => true, true, false⟩ [] 0
      ⟨str "https://youtu.be/FZLadzn5i6Q", str "10", str "5"⟩).clip =
        none := by
  decide

/-- Claim C3 (amended): a request whose parsed `endTime` is less than or
equal to its parsed `startTime` is rejected with an invalid-range error at
the cutting stage — before any transcoder invocation, so its trace
contains no stream-copy and no re-encode event and it produces no clip —
but a download may already have been performed on its behalf, because the
fetch stage runs before the range check. -/
theorem invalid_range_no_transcode (env : Env) (c : List (List Char))
    (i : Nat) (t : SegTask) (sv ev : Int)
    (hs : timeToSeconds t.startTime = .ok (.int sv))
    (he : timeToSeconds t.endTime = .ok (.int ev))
    (hle : ev ≤ sv) :
    (processTask env c i t).clip = none ∧
    ∀ e ∈ (processTask env c i t).events, e.isCutEv = false := by
  have hd := calculateDuration_of_le t sv ev hs he hle
  rcases hid : getYouTubeId t.url with _ | vid
  · unfold processTask
    rw [hid]
    exact ⟨rfl, by intro e he2; simp at he2⟩
  · rw [processTask_of_id env c i t vid hid]
    by_cases hc : vid ∈ c
    · rw [if_pos hc, cutStage_of_error env c [] i t vid hd]
      exact ⟨rfl, by intro e he2; simp at he2⟩
    · rw [if_neg hc]
      by_cases hf : env.fetchOk i = true
      · rw [if_pos hf, cutStage_of_error env (vid :: c) [.download i vid]
          i t vid hd]
        refine ⟨rfl, ?_⟩
        intro e he2
        simp at he2
        subst he2
        rfl
      · rw [if_neg hf]
        refine ⟨rfl, ?_⟩
        intro e he2
        simp at he2
        subst he2
        rfl

/-- Claim C3, witness for the amended theorem: the counterexample input
(start 10s, end 5s) produces no clip and triggers no transcoder run. -/
theorem invalid_range_no_transcode_witness :
    (timeToSeconds (str "10") = .ok (.int 10) ∧
      timeToSeconds (str "5") = .ok (.int 5) ∧ (5 : Int) ≤ 10) ∧
    (processTask ⟨str "cache", str "tmp", str "out.mp4", [], fun _ => true,
        fun _ => true, fun _ => true, true, false⟩ [] 0
      ⟨str "https://youtu.be/FZLadzn5i6Q", str "10", str "5"⟩).clip = none :=
  ⟨⟨by decide, by decide, by decide⟩,
    (invalid_range_no_transcode
      ⟨str "cache", str "tmp", str "out.mp4", [], fun _ => true,
        fun _ => true, fun _ => true, true, false⟩ [] 0
      ⟨str "https://youtu.be/FZLadzn5i6Q", str "10", str "5"⟩ 10 5
      (by decide) (by decide) (by decide)).1⟩

/-- Claim C4: fetching is idempotent per identifier — for two consecutive
requests resolving to the same (not-yet-cached) video id whose first
fetch succeeds, exactly one download is performed across both requests;
the second request performs no download at all (and no freshness or
integrity re-check: its only events are cut invocations), and both
requests use the same deterministic cache path as the local source. -/
theorem fetch_idempotent_consecutive (env : Env) (c : List (List Char))
    (i : Nat) (t₁ t₂ : SegTask) (vid : List Char)
    (h₁ : getYouTubeId t₁.url = some vid)
    (h₂ : getYouTubeId t₂.url = some vid)
    (hc : vid ∉ c)
    (hf : env.fetchOk i = true) :
    ((processTask env c i t₁).events ++
        (processTask env (processTask env c i t₁).cache (i + 1) t₂).events).countP
      Event.isDownloadEv = 1 ∧
    (∀ e ∈ (processTask env (processTask env c i t₁).cache (i + 1) t₂).events,
      e.isDownloadEv = false) ∧
    (processTask env c i t₁).usedPath = some (cachedVideoPath env vid) ∧
    (processTask env (processTask env c i t₁).cache (i + 1) t₂).usedPath =
      some (cachedVideoPath env vid) := by
  have hr₁ : processTask env c i t₁ =
      cutStage env (vid :: c) [.download i vid] i t₁ vid := by
    rw [processTask_of_id env c i t₁ vid h₁, if_neg hc, if_pos hf]
  have hcache₁ : (processTask env c i t₁).cache = vid :: c := by
    rw [hr₁, cutStage_cache]
  have hr₂ : processTask env (processTask env c i t₁).cache (i + 1) t₂ =
      cutStage env (vid :: c) [] (i + 1) t₂ vid := by
    rw [hcache₁, processTask_of_id env (vid :: c) (i + 1) t₂ vid h₂,
      if_pos (List.mem_cons_self vid c)]
  obtain ⟨tail₁, htl₁, hcut₁⟩ :=
    cutStage_events_decomp env (vid :: c) [.download i vid] i t₁ vid
  obtain ⟨tail₂, htl₂, hcut₂⟩ :=
    cutStage_events_decomp env (vid :: c) [] (i + 1) t₂ vid
  have hnd : ∀ tail : List Event, (∀ e ∈ tail, e.isCutEv = true) →
      tail.countP Event.isDownloadEv = 0 := by
    intro tail htail
    rw [List.countP_eq_zero]
    intro e hetail
    have := htail e hetail
    cases e <;> simp_all [Event.isCutEv, Event.isDownloadEv]
  refine ⟨?_, ?_, ?_, ?_⟩
  · rw [hr₂, hr₁, htl₁, htl₂]
    rw [List.countP_append, List.countP_append, List.countP_append]
    rw [hnd tail₁ hcut₁, hnd tail₂ hcut₂]
    rfl
  · intro e he2
    rw [hr₂, htl₂] at he2
    simp at he2
    have := hcut₂ e he2
    cases e <;> simp_all [Event.isCutEv, Event.isDownloadEv]
  · rw [hr₁, cutStage_usedPath]
  · rw [hr₂, cutStage_usedPath]

/-- Claim C4, witness: two consecutive requests for the same URL from an
empty cache with a succeeding fetch perform exactly one download, and the
second request uses the cache path with no download of its own. -/
theorem fetch_idempotent_consecutive_witness :
    (getYouTubeId (str "https://youtu.be/FZLadzn5i6Q") =
        some (str "FZLadzn5i6Q") ∧
      (str "FZLadzn5i6Q") ∉ ([] : List (List Char))) ∧
    ((processTask ⟨str "cache", str "tmp", str "out.mp4", [], fun _ => true,
          fun _ => true, fun _ => true, true, false⟩ [] 0
        ⟨str "https://youtu.be/FZLadzn5i6Q", str "0", str "5"⟩).events ++
      (processTask ⟨str "cache", str "tmp", str "out.mp4", [], fun _ => true,
          fun _ => true, fun _ => true, true, false⟩
        (processTask ⟨str "cache", str "tmp", str "out.mp4", [],
            fun _ => true, fun _ => true, fun _ => true, true, false⟩ [] 0
          ⟨str "https://youtu.be/FZLadzn5i6Q", str "0", str "5"⟩).cache 1
        ⟨str "https://youtu.be/FZLadzn5i6Q", str "0", str "5"⟩).events).countP
      Event.isDownloadEv = 1 :=
  ⟨⟨by decide, by decide⟩,
    (fetch_idempotent_consecutive
      ⟨str "cache", str "tmp", str "out.mp4", [], fun _ => true,
        fun _ => true, fun _ => true, true, false⟩ [] 0
      ⟨str "https://youtu.be/FZLadzn5i6Q", str "0", str "5"⟩
      ⟨str "https://youtu.be/FZLadzn5i6Q", str "0", str "5"⟩
      (str "FZLadzn5i6Q") (by decide) (by decide) (by decide) (by decide)).1⟩

/-- Claim C5: for every request that reaches the cutting stage with a
valid duration, the stream-copy extraction is always attempted; the
re-encode extraction — with the same input, same start time and the same
duration — is attempted exactly when the stream-copy fails (and then
immediately after it); the request yields no clip exactly when both
attempts fail, and in that case the cached source stays in the cache. -/
theorem cut_fallback_policy (env : Env) (c : List (List Char)) (i : Nat)
    (t : SegTask) (vid : List Char) (d : JSNum)
    (hid : getYouTubeId t.url = some vid)
    (hreach : vid ∈ c ∨ env.fetchOk i = true)
    (hd : calculateDuration t.startTime t.endTime = .ok d) :
    (Event.ffCopy i (cachedVideoPath env vid) t.startTime d ∈
      (processTask env c i t).events) ∧
    ((Event.ffReencode i (cachedVideoPath env vid) t.startTime d ∈
      (processTask env c i t).events) ↔ env.copyOk i = false) ∧
    (env.copyOk i = false →
      ∃ pre, (processTask env c i t).events =
        pre ++ [Event.ffCopy i (cachedVideoPath env vid) t.startTime d,
          Event.ffReencode i (cachedVideoPath env vid) t.startTime d]) ∧
    ((processTask env c i t).clip = none ↔
      (env.copyOk i = false ∧ env.reencodeOk i = false)) ∧
    ((env.copyOk i = false ∧ env.reencodeOk i = false) →
      vid ∈ (processTask env c i t).cache) := by
  have hstep : ∃ c' ev0, (vid ∈ c' ∧ (∀ e ∈ ev0, e.isCutEv = false)) ∧
      processTask env c i t = cutStage env c' ev0 i t vid := by
    rcases hreach with hin | hfok
    · refine ⟨c, [], ⟨hin, by intro e he2; simp at he2⟩, ?_⟩
      rw [processTask_of_id env c i t vid hid, if_pos hin]
    · by_cases hin : vid ∈ c
      · refine ⟨c, [], ⟨hin, by intro e he2; simp at he2⟩, ?_⟩
        rw [processTask_of_id env c i t vid hid, if_pos hin]
      · refine ⟨vid :: c, [.download i vid],
          ⟨List.mem_cons_self vid c, ?_⟩, ?_⟩
        · intro e he2
          simp at he2
          subst he2
          rfl
        · rw [processTask_of_id env c i t vid hid, if_neg hin, if_pos hfok]
  obtain ⟨c', ev0, ⟨hin', hev0⟩, hstep⟩ := hstep
  rw [hstep, cutStage_of_ok env c' ev0 i t vid d hd]
  by_cases hcopy : env.copyOk i = true
  · rw [if_pos hcopy]
    refine ⟨by simp, ?_, ?_, ?_, ?_⟩
    · simp only [List.mem_append]
      constructor
      · intro h
        rcases h with h | h
        · exact absurd (hev0 _ h) (by simp [Event.isCutEv])
        · simp at h
      · intro h
        rw [h] at hcopy
        simp at hcopy
    · intro h
      rw [h] at hcopy
      simp at hcopy
    · constructor
      · intro h
        simp at h
      · intro ⟨h, _⟩
        rw [h] at hcopy
        simp at hcopy
    · intro ⟨h, _⟩
      rw [h] at hcopy
      simp at hcopy
  · have hcopy' : env.copyOk i = false := by
      cases h : env.copyOk i
      · rfl
      · exact absurd h hcopy
    rw [if_neg hcopy]
    by_cases hre : env.reencodeOk i = true
    · rw [if_pos hre]
      refine ⟨by simp, ?_, ?_, ?_, ?_⟩
      · simp [hcopy']
      · intro _
        exact ⟨ev0, rfl⟩
      · constructor
        · intro h
          simp at h
        · intro ⟨_, h⟩
          rw [h] at hre
          simp at hre
      · intro ⟨_, h⟩
        rw [h] at hre
        simp at hre
    · rw [if_neg hre]
      have hre' : env.reencodeOk i = false := by
        cases h : env.reencodeOk i
        · rfl
        · exact absurd h hre
      refine ⟨by simp, ?_, ?_, ?_, ?_⟩
      · simp [hcopy']
      · intro _
        exact ⟨ev0, rfl⟩
      · simp [hcopy', hre']
      · intro _
        exact hin'

/-- Claim C5, witness: a request whose stream-copy fails but whose
re-encode succeeds attempts the copy, then the re-encode with the same
start and duration, and still produces a clip while the source stays
cached. -/
theorem cut_fallback_policy_witness :
    (getYouTubeId (str "https://youtu.be/FZLadzn5i6Q") =
        some (str "FZLadzn5i6Q") ∧
      ((str "FZLadzn5i6Q") ∈ [str "FZLadzn5i6Q"] ∨
        ((⟨str "cache", str "tmp", str "out.mp4", [str "FZLadzn5i6Q"],
          fun _ => true, fun _ => false, fun _ => true, true,
          false⟩ : Env)).fetchOk 0 = true) ∧
      calculateDuration (str "0") (str "5") = .ok (.int 5)) ∧
    (Event.ffReencode 0
        (cachedVideoPath ⟨str "cache", str "tmp", str "out.mp4",
          [str "FZLadzn5i6Q"], fun _ => true, fun _ => false, fun _ => true,
          true, false⟩ (str "FZLadzn5i6Q")) (str "0") (.int 5) ∈
      (processTask ⟨str "cache", str "tmp", str "out.mp4",
          [str "FZLadzn5i6Q"], fun _ => true, fun _ => false, fun _ => true,
          true, false⟩ [str "FZLadzn5i6Q"] 0
        ⟨str "https://youtu.be/FZLadzn5i6Q", str "0", str "5"⟩).events ↔
      (⟨str "cache", str "tmp", str "out.mp4", [str "FZLadzn5i6Q"],
        fun _ => true, fun _ => false, fun _ => true, true,
        false⟩ : Env).copyOk 0 = false) :=
  ⟨⟨by decide, Or.inl (by decide), by decide⟩,
    (cut_fallback_policy
      ⟨str "cache", str "tmp", str "out.mp4", [str "FZLadzn5i6Q"],
        fun _ => true, fun _ => false, fun _ => true, true, false⟩
      [str "FZLadzn5i6Q"] 0
      ⟨str "https://youtu.be/FZLadzn5i6Q", str "0", str "5"⟩
      (str "FZLadzn5i6Q") (.int 5) (by decide) (Or.inl (by decide))
      (by decide)).2.1⟩

/-- Claim C6, counterexample: the claim requires any partially written
output file to be removed before the merge stage returns on failure, but
the code's merge error handler only logs — no removal of the output path
is ever performed.  In a concrete failing-merge run the trace contains
the merge invocation and the temp-directory removal, but no removal of
the output path `"out.mp4"`. -/
theorem merge_failure_leaves_output_counterexample :
    (runMain ⟨str "cache", str "tmp", str "out.mp4", [], fun _ => true,
        fun _ => true, fun _ => true, false, false⟩
      [⟨some (str "https://youtu.be/FZLadzn5i6Q"), some (str "0"),
        some (str "5")⟩]).outcome = .completed false ∧
    Event.ffMerge [str "tmp/cut_segment_1_FZLadzn5i6Q.mp4"] (str "out.mp4") ∈
      (runMain ⟨str "cache", str "tmp", str "out.mp4", [], fun _ => true,
          fun _ => true, fun _ => true, false, false⟩
        [⟨some (str "https://youtu.be/FZLadzn5i6Q"), some (str "0"),
          some (str "5")⟩]).events ∧
    Event.removeFile (str "out.mp4") ∉
      (runMain ⟨str "cache", str "tmp", str "out.mp4", [], fun _ => true,
          fun _ => true, fun _ => true, false, false⟩
        [⟨some (str "https://youtu.be/FZLadzn5i6Q"), some (str "0"),
          some (str "5")⟩]).events := by
  decide

/-- Claim C6 (amended): if the final concatenation fails, the run reports
the merge failure (outcome `completed false`) but performs no removal of
the output path — the only file removal ever issued is the temp-directory
cleanup (which happens whenever verbose mode is off) — and the process
still exits with code 0. -/
theorem merge_failure_cleanup_behavior (env : Env) (raw : List RawTask)
    (hv : raw.any missingField = false)
    (hne : (runLoop env env.cache0 0 (raw.map taskOfRaw)).clips ≠ [])
    (hm : env.mergeOk = false) :
    (runMain env raw).outcome = .completed false ∧
    (runMain env raw).exitCode = 0 ∧
    (∀ p, Event.removeFile p ∈ (runMain env raw).events → p = env.tempDir) ∧
    (env.verbose = false →
      Event.removeFile env.tempDir ∈ (runMain env raw).events) := by
  have hni : (runLoop env env.cache0 0 (raw.map taskOfRaw)).clips.isEmpty
      = false := by
    cases hcl : (runLoop env env.cache0 0 (raw.map taskOfRaw)).clips
    · exact absurd hcl hne
    · rfl
  unfold runMain
  rw [hv]
  simp only [Bool.false_eq_true, if_false]
  rw [hni]
  simp only [Bool.false_eq_true, if_false]
  refine ⟨by simp [hm], trivial, ?_, ?_⟩
  · intro p hp
    simp only [List.mem_append] at hp
    rcases hp with (hp | hp) | hp
    · have hk := runLoop_events_kinds env (raw.map taskOfRaw) env.cache0 0 _ hp
      have hnr := (eventKind_not_merge_remove _ hk).2
      simp [Event.isRemoveEv] at hnr
    · simp at hp
    · rcases hvb : env.verbose with _ | _ <;> rw [hvb] at hp <;> simp at hp
      exact hp
  · intro hvb
    simp only [List.mem_append]
    right
    rw [hvb]
    simp

/-- Claim C6, witness for the amended theorem: in the concrete
failing-merge run the outcome is a reported merge failure and the
temp directory is removed. -/
theorem merge_failure_cleanup_behavior_witness :
    ([(⟨some (str "https://youtu.be/FZLadzn5i6Q"), some (str "0"),
        some (str "5")⟩ : RawTask)].any missingField = false ∧
      (runLoop ⟨str "cache", str "tmp", str "out.mp4", [], fun _ => true,
          fun _ => true, fun _ => true, false, false⟩ [] 0
        ([(⟨some (str "https://youtu.be/FZLadzn5i6Q"), some (str "0"),
          some (str "5")⟩ : RawTask)].map taskOfRaw)).clips ≠ []) ∧
    (runMain ⟨str "cache", str "tmp", str "out.mp4", [], fun _ => true,
        fun _ => true, fun _ => true, false, false⟩
      [⟨some (str "https://youtu.be/FZLadzn5i6Q"), some (str "0"),
        some (str "5")⟩]).outcome = .completed false :=
  ⟨⟨by decide, by decide⟩,
    (merge_failure_cleanup_behavior
      ⟨str "cache", str "tmp", str "out.mp4", [], fun _ => true,
        fun _ => true, fun _ => true, false, false⟩
      [⟨some (str "https://youtu.be/FZLadzn5i6Q"), some (str "0"),
        some (str "5")⟩] (by decide) (by decide) (by decide)).1⟩

theorem runLoop_clip_position (env : Env) :
    ∀ (ts : List SegTask) (c : List (List Char)) (i b : Nat) (tb : SegTask)
      (p : List Char),
      ts[b]? = some tb →
      (processTask env (runLoop env c i (ts.take b)).cache (i + b) tb).clip
        = some p →
      ∃ k : Nat, (runLoop env c i ts).clips[k]? = some p := by
  intro ts
  induction ts with
  | nil =>
    intro c i b tb p hb _
    simp at hb
  | cons t ts ih =>
    intro c i b tb p hb hclip
    have hcons : (runLoop env c i (t :: ts)).clips
        = (processTask env c i t).clip.toList
          ++ (runLoop env (processTask env c i t).cache (i + 1) ts).clips :=
      rfl
    cases b with
    | zero =>
      simp at hb
      subst hb
      refine ⟨0, ?_⟩
      rw [hcons, show (processTask env c i t).clip = some p from hclip]
      simp
    | succ b' =>
      simp only [List.getElem?_cons_succ] at hb
      have hidx : i + (b' + 1) = (i + 1) + b' := by omega
      rw [hidx] at hclip
      have hclip' : (processTask env
          (runLoop env (processTask env c i t).cache (i + 1)
            (ts.take b')).cache ((i + 1) + b') tb).clip = some p := hclip
      obtain ⟨k, hk⟩ :=
        ih (processTask env c i t).cache (i + 1) b' tb p hb hclip'
      refine ⟨(processTask env c i t).clip.toList.length + k, ?_⟩
      rw [hcons, List.getElem?_append_right (Nat.le_add_right _ _),
        Nat.add_sub_cancel_left]
      exact hk

theorem runLoop_two_clip_positions (env : Env) :
    ∀ (ts : List SegTask) (c : List (List Char)) (i a b : Nat)
      (ta tb : SegTask) (pa pb : List Char),
      a < b → ts[a]? = some ta → ts[b]? = some tb →
      (processTask env (runLoop env c i (ts.take a)).cache (i + a) ta).clip
        = some pa →
      (processTask env (runLoop env c i (ts.take b)).cache (i + b) tb).clip
        = some pb →
      ∃ k₁ k₂ : Nat, k₁ < k₂ ∧ (runLoop env c i ts).clips[k₁]? = some pa ∧
        (runLoop env c i ts).clips[k₂]? = some pb := by
  intro ts
  induction ts with
  | nil =>
    intro c i a b ta tb pa pb hab ha hb hca hcb
    simp at ha
  | cons t ts ih =>
    intro c i a b ta tb pa pb hab ha hb hca hcb
    have hcons : (runLoop env c i (t :: ts)).clips
        = (processTask env c i t).clip.toList
          ++ (runLoop env (processTask env c i t).cache (i + 1) ts).clips :=
      rfl
    cases a with
    | zero =>
      simp at ha
      subst ha
      rcases b with _ | b'
      · omega
      simp only [List.getElem?_cons_succ] at hb
      have hidx : i + (b' + 1) = (i + 1) + b' := by omega
      rw [hidx] at hcb
      have hcb' : (processTask env
          (runLoop env (processTask env c i t).cache (i + 1)
            (ts.take b')).cache ((i + 1) + b') tb).clip = some pb := hcb
      obtain ⟨k, hk⟩ := runLoop_clip_position env ts
        (processTask env c i t).cache (i + 1) b' tb pb hb hcb'
      refine ⟨0, k + 1, Nat.succ_pos k, ?_, ?_⟩
      · rw [hcons, show (processTask env c i t).clip = some pa from hca]
        simp
      · rw [hcons, show (processTask env c i t).clip = some pa from hca]
        show ((pa :: []) ++
          (runLoop env (processTask env c i t).cache (i + 1) ts).clips)[k + 1]?
            = some pb
        rw [List.cons_append, List.getElem?_cons_succ, List.nil_append]
        exact hk
    | succ a' =>
      rcases b with _ | b'
      · omega
      simp only [List.getElem?_cons_succ] at ha hb
      have hab' : a' < b' := by omega
      have hidxa : i + (a' + 1) = (i + 1) + a' := by omega
      have hidxb : i + (b' + 1) = (i + 1) + b' := by omega
      rw [hidxa] at hca
      rw [hidxb] at hcb
      have hca' : (processTask env
          (runLoop env (processTask env c i t).cache (i + 1)
            (ts.take a')).cache ((i + 1) + a') ta).clip = some pa := hca
      have hcb' : (processTask env
          (runLoop env (processTask env c i t).cache (i + 1)
            (ts.take b')).cache ((i + 1) + b') tb).clip = some pb := hcb
      obtain ⟨k₁, k₂, hk, hk1, hk2⟩ :=
        ih (processTask env c i t).cache (i + 1) a' b' ta tb pa pb hab'
          ha hb hca' hcb'
      refine ⟨(processTask env c i t).clip.toList.length + k₁,
        (processTask env c i t).clip.toList.length + k₂, by omega, ?_, ?_⟩
      · rw [hcons, List.getElem?_append_right (Nat.le_add_right _ _),
          Nat.add_sub_cancel_left]
        exact hk1
      · rw [hcons, List.getElem?_append_right (Nat.le_add_right _ _),
          Nat.add_sub_cancel_left]
        exact hk2

/-- Claim C1: the clips handed to the merge stage appear in exactly the
original request order restricted to the surviving requests — if requests
`i` and `j` both produce clips and `i < j`, then request `i`'s clip
occupies an earlier position than request `j`'s clip in the ordered list
the merge stage receives, however many intervening requests were
skipped. -/
theorem clips_in_request_order (env : Env) (ts : List SegTask)
    (i j : Nat) (pi pj : List Char) (hij : i < j)
    (hi : producedAt env ts i = some pi)
    (hj : producedAt env ts j = some pj) :
    ∃ k₁ k₂ : Nat, k₁ < k₂ ∧ (mergedClips env ts)[k₁]? = some pi ∧
      (mergedClips env ts)[k₂]? = some pj := by
  rcases hti : ts[i]? with _ | ti
  · unfold producedAt at hi
    rw [hti] at hi
    simp at hi
  rcases htj : ts[j]? with _ | tj
  · unfold producedAt at hj
    rw [htj] at hj
    simp at hj
  unfold producedAt at hi hj
  rw [hti] at hi
  rw [htj] at hj
  simp only at hi hj
  unfold cacheBefore at hi hj
  have hca : (processTask env
      (runLoop env env.cache0 0 (ts.take i)).cache (0 + i) ti).clip
        = some pi := by
    rw [Nat.zero_add]
    exact hi
  have hcb : (processTask env
      (runLoop env env.cache0 0 (ts.take j)).cache (0 + j) tj).clip
        = some pj := by
    rw [Nat.zero_add]
    exact hj
  obtain ⟨k₁, k₂, hk, hk1, hk2⟩ := runLoop_two_clip_positions env ts
    env.cache0 0 i j ti tj pi pj hij hti htj hca hcb
  exact ⟨k₁, k₂, hk, hk1, hk2⟩

/-- Claim C1, witness: in a three-request run whose middle request fails
to resolve an id, the two surviving clips appear in the merged input list
in their original request order. -/
theorem clips_in_request_order_witness :
    ((0 : Nat) < 2 ∧
      producedAt ⟨str "cache", str "tmp", str "out.mp4", [], fun _ => true,
          fun _ => true, fun _ => true, true, false⟩
        [⟨str "https://youtu.be/FZLadzn5i6Q", str "0", str "5"⟩,
          ⟨str "bad", str "0", str "5"⟩,
          ⟨str "https://youtu.be/AAAAAAAAAAA", str "1", str "3"⟩] 0 =
        some (str "tmp/cut_segment_1_FZLadzn5i6Q.mp4") ∧
      producedAt ⟨str "cache", str "tmp", str "out.mp4", [], fun _ => true,
          fun _ => true, fun _ => true, true, false⟩
        [⟨str "https://youtu.be/FZLadzn5i6Q", str "0", str "5"⟩,
          ⟨str "bad", str "0", str "5"⟩,
          ⟨str "https://youtu.be/AAAAAAAAAAA", str "1", str "3"⟩] 2 =
        some (str "tmp/cut_segment_3_AAAAAAAAAAA.mp4")) ∧
    ∃ k₁ k₂ : Nat, k₁ < k₂ ∧
      (mergedClips ⟨str "cache", str "tmp", str "out.mp4", [], fun _ => true,
          fun _ => true, fun _ => true, true, false⟩
        [⟨str "https://youtu.be/FZLadzn5i6Q", str "0", str "5"⟩,
          ⟨str "bad", str "0", str "5"⟩,
          ⟨str "https://youtu.be/AAAAAAAAAAA", str "1", str "3"⟩])[k₁]? =
        some (str "tmp/cut_segment_1_FZLadzn5i6Q.mp4") ∧
      (mergedClips ⟨str "cache", str "tmp", str "out.mp4", [], fun _ => true,
          fun _ => true, fun _ => true, true, false⟩
        [⟨str "https://youtu.be/FZLadzn5i6Q", str "0", str "5"⟩,
          ⟨str "bad", str "0", str "5"⟩,
          ⟨str "https://youtu.be/AAAAAAAAAAA", str "1", str "3"⟩])[k₂]? =
        some (str "tmp/cut_segment_3_AAAAAAAAAAA.mp4") :=
  ⟨⟨by decide, by decide, by decide⟩,
    clips_in_request_order
      ⟨str "cache", str "tmp", str "out.mp4", [], fun _ => true,
        fun _ => true, fun _ => true, true, false⟩
      [⟨str "https://youtu.be/FZLadzn5i6Q", str "0", str "5"⟩,
        ⟨str "bad", str "0", str "5"⟩,
        ⟨str "https://youtu.be/AAAAAAAAAAA", str "1", str "3"⟩] 0 2
      (str "tmp/cut_segment_1_FZLadzn5i6Q.mp4")
      (str "tmp/cut_segment_3_AAAAAAAAAAA.mp4")
      (by decide) (by decide) (by decide)⟩
